import Mathlib

/-!
Verification development for the voice-driven AI interviewer (given.py).

The program composes a speech recognizer, a text-to-speech backend and a
keyboard listener into a phased interview session.  The embedding below
translates the interactive core into pure Lean functions:

* `listenLoop` / `listen_for_audio` — `AudioHandler.listen_for_audio`: the
  cooperative capture loop that polls audio chunks while watching a stop
  flag, a quit flag, and a maximum-duration timeout.  Each loop iteration is
  represented by one `LoopStep` observation: the values of the two shared
  key flags at the top-of-loop check, the elapsed wall-clock time at the
  timeout check, whether the blocking stream read raises, and the chunk it
  returns otherwise.  Raising `KeyboardInterrupt` is an `Except.error`.
* `speech_to_text` — the recognition boundary; the external recognizer is a
  parameter (`Except Unit String`: an exception, or the decoded text).
* `ask_question_and_record` — `_ask_question_and_record`: speak, wait for a
  key, capture, transcribe, append.  The per-question environment `QEnv`
  supplies the key result, the capture result and the recognizer result.
* `runQuestions` — the `for` loops in `start_interview` that drive the
  per-question protocol and raise `KeyboardInterrupt` on a "quit" signal.
* `save_transcript` / `transcriptJson` — persistence of the transcript to a
  path keyed by candidate id and interview name, over an explicit
  filesystem map `FS`.
* `interviewBody` / `start_interview` — the phased state machine with its
  try/except/finally structure; the trace of `Event`s records every spoken
  text and the transcript save, in order.
-/

/-- Audio bytes: a sequence of byte values. -/
abbrev Bytes := List Nat

/-- The Python exception classes the program's handlers distinguish.
`keyboardInterrupt` derives from `BaseException` only; the other three
derive from `Exception`, so a bare `except Exception` catches them. -/
inductive PyExn where
  | keyboardInterrupt
  | fileNotFound
  | ioError
  | genericError
deriving DecidableEq, Repr

deriving instance DecidableEq for Except

/-- Whether a Python `except Exception` clause catches the exception. -/
def PyExn.isException : PyExn → Bool
  | .keyboardInterrupt => false
  | _ => true

/-- One iteration of the capture loop, as observed by the single control
thread: the two shared flags at the top-of-loop check, the elapsed time
`time.time() - start_time` at the timeout check, whether `stream.read`
raises at this iteration, and the chunk it returns otherwise. -/
structure LoopStep where
  stop : Bool
  quit : Bool
  elapsed : Nat
  readErr : Bool
  chunk : Bytes
deriving DecidableEq, Repr

/-- What `listen_for_audio` leaves behind: its returned value or raised
exception, and the resource state at exit (whether `stream.stop_stream()`,
`stream.close()` and the listener stop ran before control left the call). -/
structure CaptureResult where
  result : Except PyExn Bytes
  streamStopped : Bool
  streamClosed : Bool
  listenerStopped : Bool
deriving DecidableEq

/-- The `while self.recording` loop of `AudioHandler.listen_for_audio`,
one constructor case per iteration.  Per iteration the code checks
`self._stop_recording or self._quit_flag`, then the timeout
`time.time() - start_time > max_duration` (strict), then reads a chunk and
appends it to `frames`.  After the loop the listener is stopped, the stream
is stopped and closed, and `KeyboardInterrupt` is raised iff `_quit_flag`
is set; an exception from `stream.read` propagates out of the `with`
block (stopping the listener) but skips the stream stop/close, which are
not inside any `finally`.  `none` means the finite observation list was
exhausted before the loop broke (no real run does this: elapsed time
strictly increases past any bound). -/
def listenLoop (maxD : Nat) : List LoopStep → Bytes → Option CaptureResult
  | [], _ => none
  | s :: rest, frames =>
    if s.stop || s.quit then
      some ⟨if s.quit then .error .keyboardInterrupt else .ok frames, true, true, true⟩
    else if maxD < s.elapsed then
      some ⟨.ok frames, true, true, true⟩
    else if s.readErr then
      some ⟨.error .ioError, false, false, true⟩
    else listenLoop maxD rest (frames ++ s.chunk)

/-- `AudioHandler.listen_for_audio(max_duration)`: run the capture loop
starting from an empty frame buffer. -/
def listen_for_audio (maxD : Nat) (steps : List LoopStep) : Option CaptureResult :=
  listenLoop maxD steps []

/-- The spec's tagged capture outcome. -/
inductive CaptureOutcome where
  | Captured (audio : Bytes)
  | StoppedEmpty
  | QuitRequested
deriving DecidableEq, Repr

/-- How a capture call's returned value or raised `KeyboardInterrupt` maps
onto the spec's outcome vocabulary.  An exception other than
`KeyboardInterrupt` is outside the capture protocol (`none`). -/
def outcomeOf : Except PyExn Bytes → Option CaptureOutcome
  | .ok [] => some .StoppedEmpty
  | .ok bs => some (.Captured bs)
  | .error .keyboardInterrupt => some .QuitRequested
  | .error _ => none

/-- The audio accumulated by a run of loop iterations: the concatenation of
their chunks, in order. -/
def chunksOf (steps : List LoopStep) : Bytes :=
  (steps.map LoopStep.chunk).flatten

/-- One transcript record: `{"question_id": ..., "question": ..., "answer": ...}`. -/
structure TranscriptEntry where
  question_id : String
  question : String
  answer : String
deriving DecidableEq, Repr

/-- The dict `wait_for_key` returns: which of the two recognized keys was
seen when the blocking listener stopped. -/
structure KeyPressed where
  e : Bool
  q : Bool
deriving DecidableEq, Repr

/-- The environment one question's interaction consumes: the
`wait_for_key` result, the capture result (returned bytes or raised
exception), and the external recognizer's behaviour on the captured audio
(an exception, or the decoded `"text"` field, possibly empty). -/
structure QEnv where
  key : KeyPressed
  cap : Except PyExn Bytes
  recog : Except Unit String
deriving DecidableEq

/-- Observable actions of the engine, in order: every spoken text, and the
transcript save with its path and serialized content. -/
inductive Event where
  | spoke (text : String)
  | savedTranscript (path : String) (content : String)
deriving DecidableEq, Repr

/-- `AIInterviewer.speech_to_text`: empty audio yields `None` without
touching the recognizer; a recognizer exception is caught and yields
`None`; an empty `"text"` field yields `None`; otherwise the text. -/
def speech_to_text (audio_bytes : Bytes) (recog : Except Unit String) : Option String :=
  if audio_bytes = [] then none
  else
    match recog with
    | .error _ => none
    | .ok text => if text = "" then none else some text

/-- The placeholder answer recorded when capture yields no usable text. -/
def noAnswerText : String := "No answer recorded."

/-- `AIInterviewer._ask_question_and_record(question, question_id)`:
speak the question; wait for a key; on `q` return the string `"quit"`; on
`e` capture audio (a raised exception propagates), transcribe it and
append one entry (placeholder answer when no text); on neither key fall
through and return `None`.  The result is `(events, transcript, outcome)`;
the transcript reflects the object state `self.transcript`, which persists
even when an exception propagates. -/
def ask_question_and_record (transcript : List TranscriptEntry) (question : String)
    (question_id : String) (env : QEnv) :
    List Event × List TranscriptEntry × Except PyExn (Option String) :=
  if env.key.q then ([Event.spoke question], transcript, .ok (some "quit"))
  else if env.key.e then
    match env.cap with
    | .error e => ([Event.spoke question], transcript, .error e)
    | .ok answer_bytes =>
      if answer_bytes ≠ [] then
        ([Event.spoke question],
         transcript ++ [⟨question_id, question,
           (speech_to_text answer_bytes env.recog).getD noAnswerText⟩],
         .ok none)
      else
        ([Event.spoke question], transcript ++ [⟨question_id, question, noAnswerText⟩], .ok none)
  else ([Event.spoke question], transcript, .ok none)

/-- The question loops of `start_interview`: run
`_ask_question_and_record` on each `(question, question_id)` in order,
raising `KeyboardInterrupt` as soon as one returns `"quit"`, and stopping
with `e` when one raises `e`.  `inputs idx` is the environment the
`idx`-th interaction of the session consumes.  Returns
`(events, transcript, next input index, raised exception if any)`. -/
def runQuestions (transcript : List TranscriptEntry) (qs : List (String × String))
    (inputs : Nat → QEnv) (idx : Nat) :
    List Event × List TranscriptEntry × Nat × Option PyExn :=
  match qs with
  | [] => ([], transcript, idx, none)
  | (question, qid) :: rest =>
    let step := ask_question_and_record transcript question qid (inputs idx)
    match step.2.2 with
    | .error e => (step.1, step.2.1, idx + 1, some e)
    | .ok sig =>
      if sig = some "quit" then (step.1, step.2.1, idx + 1, some .keyboardInterrupt)
      else
        let next := runQuestions step.2.1 rest inputs (idx + 1)
        (step.1 ++ next.1, next.2.1, next.2.2.1, next.2.2.2)

/-- JSON string escaping as `json.dump` applies it to the entry fields. -/
def jsonEscapeChar (c : Char) : String :=
  if c = '\\' then "\\\\"
  else if c = '"' then "\\\""
  else if c = '\n' then "\\n"
  else if c = '\t' then "\\t"
  else if c = '\r' then "\\r"
  else String.singleton c

/-- Escape a whole field value. -/
def jsonEscape (s : String) : String :=
  String.join (s.data.map jsonEscapeChar)

/-- One transcript entry as `json.dump(..., indent=4)` renders it inside
the list: an object with the three fields in insertion order. -/
def entryJson (e : TranscriptEntry) : String :=
  "    \x7b\n        \"question_id\": \"" ++ jsonEscape e.question_id ++
  "\",\n        \"question\": \"" ++ jsonEscape e.question ++
  "\",\n        \"answer\": \"" ++ jsonEscape e.answer ++ "\"\n    \x7d"

/-- The whole transcript as `json.dump(self.transcript, f, indent=4)`
renders it: a JSON list, `[]` when empty.  A deterministic pure function
of the transcript. -/
def transcriptJson : List TranscriptEntry → String
  | [] => "[]"
  | e :: es => "[\n" ++ String.intercalate ",\n" ((e :: es).map entryJson) ++ "\n]"

/-- A filesystem as a map from paths to file contents. -/
abbrev FS := String → Option String

/-- The transcript file path
`interview_transcript/candidate_{candidate_id}_{interview_name}.json`. -/
def transcript_path (candidate_id : Nat) (interview_name : String) : String :=
  "interview_transcript/candidate_" ++ toString candidate_id ++ "_" ++
    interview_name ++ ".json"

/-- `AIInterviewer.save_transcript`: open the path for writing (truncating
any previous content) and dump the serialized transcript. -/
def save_transcript (fs : FS) (candidate_id : Nat) (interview_name : String)
    (transcript : List TranscriptEntry) : FS :=
  fun p =>
    if p = transcript_path candidate_id interview_name then
      some (transcriptJson transcript)
    else fs p

/-- The introduction spoken at session start. -/
def introText (interview_name : String) : String :=
  "Hello, and welcome to your " ++ interview_name ++
    " interview. My name is Rime, and I'll be guiding you through some questions today. Let's begin."

/-- Spoken before the resume phase. -/
def resumeIntroText : String :=
  "Great. Now I will ask a few questions based on your resume."

/-- Spoken when no resume questions could be generated. -/
def noQuestionsText : String :=
  "I couldn't generate any questions from your resume, but we'll proceed."

/-- Spoken when the resume file is missing (`except FileNotFoundError`). -/
def skipNotFoundText : String :=
  "I couldn't find a resume for you, so we'll skip the resume-based questions."

/-- Spoken when any other resume-processing exception is caught
(`except Exception`). -/
def skipIssueText : String :=
  "I ran into an issue processing your resume, so we'll skip that part."

/-- The closing statement spoken at the end of finalize. -/
def closingText : String :=
  "Thank you for your time. The interview is now complete."

/-- The whole-session environment: whether both API keys are present, the
stream of per-interaction environments, and the combined outcome of
`extract_text_from_pdf` + `generate_resume_questions` (both external
collaborators from the `real_time` module): a raised exception or the
generated question list. -/
structure InterviewEnv where
  hasKeys : Bool
  inputs : Nat → QEnv
  resume : Except PyExn (List String)

/-- The body of the outer `try` in `start_interview`: the fixed-question
loop, then the resume phase with its inner
`try/except FileNotFoundError/except Exception`.  A `KeyboardInterrupt`
(not an `Exception` subclass in Python) escapes the inner handlers; a
`FileNotFoundError` or any other `Exception` from the resume phase is
caught there and announced.  Returns `(events, transcript, exception
escaping the body if any)`. -/
def interviewBody (questions : List (String × String)) (env : InterviewEnv) :
    List Event × List TranscriptEntry × Option PyExn :=
  let fixed := runQuestions [] questions env.inputs 0
  match fixed.2.2.2 with
  | some e => (fixed.1, fixed.2.1, some e)
  | none =>
    let evs := fixed.1 ++ [Event.spoke resumeIntroText]
    match env.resume with
    | .error .keyboardInterrupt => (evs, fixed.2.1, some .keyboardInterrupt)
    | .error .fileNotFound => (evs ++ [Event.spoke skipNotFoundText], fixed.2.1, none)
    | .error _ => (evs ++ [Event.spoke skipIssueText], fixed.2.1, none)
    | .ok rqs =>
      if rqs = [] then (evs ++ [Event.spoke noQuestionsText], fixed.2.1, none)
      else
        let res := runQuestions fixed.2.1 (rqs.map (fun q => (q, "dynamic")))
          env.inputs fixed.2.2.1
        match res.2.2.2 with
        | none => (evs ++ res.1, res.2.1, none)
        | some .keyboardInterrupt => (evs ++ res.1, res.2.1, some .keyboardInterrupt)
        | some .fileNotFound => (evs ++ res.1 ++ [Event.spoke skipNotFoundText], res.2.1, none)
        | some _ => (evs ++ res.1 ++ [Event.spoke skipIssueText], res.2.1, none)

/-- `AIInterviewer.start_interview`: refuse to start when an API key is
missing (early `return`, nothing spoken or saved); otherwise speak the
introduction, run the body under
`try ... except KeyboardInterrupt ... finally`, and in the `finally`
persist the transcript and then speak the closing statement.  The outer
handler absorbs `KeyboardInterrupt`; any other exception continues to
propagate after the `finally` block has run.  Returns
`(events, filesystem, transcript, exception escaping the call if any)`. -/
def start_interview (candidate_id : Nat) (interview_name : String)
    (questions : List (String × String)) (env : InterviewEnv) (fs : FS) :
    List Event × FS × List TranscriptEntry × Option PyExn :=
  if env.hasKeys = false then ([], fs, [], none)
  else
    let body := interviewBody questions env
    let exn := match body.2.2 with
      | some .keyboardInterrupt => none
      | x => x
    (Event.spoke (introText interview_name) :: body.1 ++
       [Event.savedTranscript (transcript_path candidate_id interview_name)
          (transcriptJson body.2.1),
        Event.spoke closingText],
     save_transcript fs candidate_id interview_name body.2.1,
     body.2.1, exn)

/-- The timeout condition as the spec words it: with no stop or quit key
event and no read failure anywhere, the capture is claimed to break at the
first iteration whose elapsed time is at least `max_duration`, returning
exactly the audio buffered strictly before it. -/
def timeoutAtElapsedGE : Prop :=
  ∀ (maxD : Nat) (pre : List LoopStep) (s : LoopStep) (rest : List LoopStep),
    (∀ x ∈ pre ++ s :: rest, x.stop = false ∧ x.quit = false ∧ x.readErr = false) →
    (∀ x ∈ pre, x.elapsed < maxD) →
    maxD ≤ s.elapsed →
    ∃ r : CaptureResult, listen_for_audio maxD (pre ++ s :: rest) = some r ∧
      r.result = .ok (chunksOf pre)

/-- C7 as stated: on every exit path of a capture call the stream is
stopped and closed and the listener is stopped. -/
def releasesAllOnEveryExit : Prop :=
  ∀ (maxD : Nat) (steps : List LoopStep) (r : CaptureResult),
    listen_for_audio maxD steps = some r →
    r.streamStopped = true ∧ r.streamClosed = true ∧ r.listenerStopped = true

def quitAtPromptQEnv : QEnv := ⟨⟨false, true⟩, .ok [], .ok ""⟩

def quitAtPromptEnv : InterviewEnv := ⟨true, fun _ => quitAtPromptQEnv, .ok []⟩

def neitherKeyQEnv : QEnv := ⟨⟨false, false⟩, .ok [], .ok ""⟩

def verbatimQEnv : QEnv := ⟨⟨true, false⟩, .ok [5, 6], .ok "hello there"⟩

def resumeMissingEnv : InterviewEnv :=
  ⟨true, fun _ => ⟨⟨true, false⟩, .ok [], .ok ""⟩, .error .fileNotFound⟩

def resumeQuitQEnv : QEnv := ⟨⟨true, false⟩, .error .keyboardInterrupt, .ok ""⟩

def resumeQuitEnv : InterviewEnv :=
  ⟨true,
   fun n => if n = 0 then ⟨⟨true, false⟩, .ok [5], .ok "fine"⟩ else resumeQuitQEnv,
   .ok ["R1", "R2"]⟩

example :
    listen_for_audio 30 [⟨false, false, 0, false, [1, 2]⟩, ⟨true, false, 1, false, [3]⟩]
      = some ⟨.ok [1, 2], true, true, true⟩ := by decide

example :
    listen_for_audio 30 [⟨false, false, 0, false, [1]⟩, ⟨true, true, 1, false, []⟩]
      = some ⟨.error .keyboardInterrupt, true, true, true⟩ := by decide

example :
    listen_for_audio 30 [⟨false, false, 29, false, [1]⟩, ⟨false, false, 31, false, [2]⟩]
      = some ⟨.ok [1], true, true, true⟩ := by decide

example :
    listen_for_audio 30 [⟨false, false, 0, true, [1]⟩]
      = some ⟨.error .ioError, false, false, true⟩ := by decide

theorem chunksOf_nil : chunksOf [] = [] := rfl

theorem chunksOf_cons (a : LoopStep) (l : List LoopStep) :
    chunksOf (a :: l) = a.chunk ++ chunksOf l := by
  simp [chunksOf]

/-- Characterization of the capture loop: with a prefix of iterations on
which no termination condition fires and the read succeeds, followed by an
iteration on which one fires, the loop breaks there; the quit flag decides
between `KeyboardInterrupt` and returning the accumulated frames. -/
theorem listenLoop_break (maxD : Nat) (pre : List LoopStep) (s : LoopStep)
    (rest : List LoopStep) (frames : Bytes)
    (hpre : ∀ x ∈ pre, x.stop = false ∧ x.quit = false ∧ x.elapsed ≤ maxD ∧ x.readErr = false)
    (hs : s.stop = true ∨ s.quit = true ∨ maxD < s.elapsed) :
    listenLoop maxD (pre ++ s :: rest) frames =
      some ⟨if s.quit then .error .keyboardInterrupt else .ok (frames ++ chunksOf pre),
        true, true, true⟩ := by
  induction pre generalizing frames with
  | nil =>
    simp only [List.nil_append, chunksOf_nil, List.append_nil]
    by_cases hsq : s.stop || s.quit
    · simp [listenLoop, hsq]
    · have hstop : s.stop = false := by
        cases h : s.stop <;> simp [h] at hsq ⊢
      have hquit : s.quit = false := by
        cases h : s.quit <;> simp [h] at hsq ⊢
      have htime : maxD < s.elapsed := by
        rcases hs with h | h | h
        · rw [h] at hstop; exact absurd hstop (by simp)
        · rw [h] at hquit; exact absurd hquit (by simp)
        · exact h
      simp [listenLoop, hsq, htime, hquit]
  | cons a pre ih =>
    have ha := hpre a (by simp)
    have hrest : ∀ x ∈ pre, x.stop = false ∧ x.quit = false ∧ x.elapsed ≤ maxD ∧ x.readErr = false :=
      fun x hx => hpre x (by simp [hx])
    have hnotime : ¬ maxD < a.elapsed := Nat.not_lt.mpr ha.2.2.1
    rw [List.cons_append]
    rw [show listenLoop maxD (a :: (pre ++ s :: rest)) frames =
      listenLoop maxD (pre ++ s :: rest) (frames ++ a.chunk) by
        simp [listenLoop, ha.1, ha.2.1, hnotime, ha.2.2.2]]
    rw [ih (frames ++ a.chunk) hrest, chunksOf_cons, List.append_assoc]

/-- Resource accounting for the capture loop: the listener (scoped by the
`with` block) is stopped on every exit; the stream stop and close run
together; they are skipped exactly on the path where `stream.read`
raises. -/
theorem listenLoop_resources (maxD : Nat) (steps : List LoopStep) (frames : Bytes)
    (r : CaptureResult) (h : listenLoop maxD steps frames = some r) :
    r.listenerStopped = true ∧ r.streamStopped = r.streamClosed ∧
      (r.streamClosed = false ↔ r.result = .error .ioError) := by
  induction steps generalizing frames with
  | nil => simp [listenLoop] at h
  | cons s rest ih =>
    by_cases h1 : s.stop || s.quit
    · rw [show listenLoop maxD (s :: rest) frames =
        some ⟨if s.quit then .error .keyboardInterrupt else .ok frames, true, true, true⟩ from by
          simp [listenLoop, h1]] at h
      injection h with h
      subst h
      by_cases hq : s.quit <;> simp [hq]
    · by_cases h2 : maxD < s.elapsed
      · rw [show listenLoop maxD (s :: rest) frames = some ⟨.ok frames, true, true, true⟩ from by
          simp [listenLoop, h1, h2]] at h
        injection h with h
        subst h
        simp
      · by_cases h3 : s.readErr
        · rw [show listenLoop maxD (s :: rest) frames =
            some ⟨.error .ioError, false, false, true⟩ from by
              simp [listenLoop, h1, h2, h3]] at h
          injection h with h
          subst h
          simp
        · rw [show listenLoop maxD (s :: rest) frames =
            listenLoop maxD rest (frames ++ s.chunk) from by
              simp [listenLoop, h1, h2, h3]] at h
          exact ih _ h

/-- C3: every terminating capture call yields exactly one of the three
outcomes, with per-iteration priority quit over stop over timeout. -/
theorem capture_outcome_priority (maxD : Nat) (pre : List LoopStep) (s : LoopStep)
    (rest : List LoopStep)
    (hpre : ∀ x ∈ pre, x.stop = false ∧ x.quit = false ∧ x.elapsed ≤ maxD ∧ x.readErr = false)
    (hs : s.stop = true ∨ s.quit = true ∨ maxD < s.elapsed) :
    ∃ r : CaptureResult, listen_for_audio maxD (pre ++ s :: rest) = some r ∧
      (s.quit = true →
        r.result = .error .keyboardInterrupt ∧ outcomeOf r.result = some .QuitRequested) ∧
      (s.quit = false →
        r.result = .ok (chunksOf pre) ∧
        outcomeOf r.result =
          some (if chunksOf pre = [] then .StoppedEmpty else .Captured (chunksOf pre))) := by
  have h := listenLoop_break maxD pre s rest [] hpre hs
  rw [List.nil_append] at h
  refine ⟨_, h, ?_, ?_⟩
  · intro hq
    simp [hq, outcomeOf]
  · intro hq
    rw [hq]
    refine ⟨by simp, ?_⟩
    cases hc : chunksOf pre with
    | nil => simp [outcomeOf, hc]
    | cons b bs => simp [outcomeOf, hc]

/-- Witness for C3 at a concrete schedule: one clean read, then an
iteration with both stop and quit set; quit wins. -/
theorem capture_outcome_priority_witness :
    ∃ r : CaptureResult,
      listen_for_audio 30
        [⟨false, false, 0, false, [7]⟩, ⟨true, true, 1, false, [9]⟩] = some r ∧
      (true = true →
        r.result = .error .keyboardInterrupt ∧ outcomeOf r.result = some .QuitRequested) ∧
      (true = false →
        r.result = .ok (chunksOf [⟨false, false, 0, false, [7]⟩]) ∧
        outcomeOf r.result =
          some (if chunksOf [⟨false, false, 0, false, [7]⟩] = [] then .StoppedEmpty
            else .Captured (chunksOf [⟨false, false, 0, false, [7]⟩]))) :=
  capture_outcome_priority 30 [⟨false, false, 0, false, [7]⟩] ⟨true, true, 1, false, [9]⟩ []
    (by decide) (by decide)

/-- Counterexample for C6 as stated: at `max_duration = 30` a first
iteration with elapsed time exactly 30 does not break the loop (the code
compares strictly); the chunk read there is part of the returned audio,
so the capture does not return the audio buffered before the bound was
reached. -/
theorem capture_timeout_ge_counterexample : ¬ timeoutAtElapsedGE := by
  intro h
  obtain ⟨r, hr, hres⟩ := h 30 [] ⟨false, false, 30, false, [1]⟩
    [⟨false, false, 31, false, [2]⟩] (by decide) (by decide) (by decide)
  rw [List.nil_append] at hr
  rw [show listen_for_audio 30
      [⟨false, false, 30, false, [1]⟩, ⟨false, false, 31, false, [2]⟩] =
      some ⟨.ok [1], true, true, true⟩ from by decide] at hr
  injection hr with hr
  subst hr
  simp [chunksOf] at hres

/-- C6 (amended): the timeout check is strict; with no key events and no
read failure the loop breaks at the first iteration whose elapsed time
strictly exceeds `max_duration`, with a `Captured` outcome holding the
audio buffered so far (`StoppedEmpty` when none). -/
theorem capture_timeout_bound (maxD : Nat) (pre : List LoopStep) (s : LoopStep)
    (rest : List LoopStep)
    (hflags : ∀ x ∈ pre ++ s :: rest, x.stop = false ∧ x.quit = false ∧ x.readErr = false)
    (hpre : ∀ x ∈ pre, x.elapsed ≤ maxD)
    (hs : maxD < s.elapsed) :
    ∃ r : CaptureResult, listen_for_audio maxD (pre ++ s :: rest) = some r ∧
      r.result = .ok (chunksOf pre) ∧
      outcomeOf r.result =
        some (if chunksOf pre = [] then .StoppedEmpty else .Captured (chunksOf pre)) := by
  have hq : s.quit = false := (hflags s (by simp)).2.1
  have h := listenLoop_break maxD pre s rest []
    (fun x hx => ⟨(hflags x (by simp [hx])).1, (hflags x (by simp [hx])).2.1,
      hpre x hx, (hflags x (by simp [hx])).2.2⟩)
    (Or.inr (Or.inr hs))
  rw [List.nil_append, hq] at h
  simp only [Bool.false_eq_true, if_false] at h
  refine ⟨_, h, rfl, ?_⟩
  cases hc : chunksOf pre with
  | nil => simp [outcomeOf, hc]
  | cons b bs => simp [outcomeOf, hc]

/-- Witness for C6 (amended) at a concrete schedule: a clean read at
elapsed 10, then timeout at elapsed 31. -/
theorem capture_timeout_bound_witness :
    ∃ r : CaptureResult,
      listen_for_audio 30
        [⟨false, false, 10, false, [4]⟩, ⟨false, false, 31, false, [5]⟩] = some r ∧
      r.result = .ok (chunksOf [⟨false, false, 10, false, [4]⟩]) ∧
      outcomeOf r.result =
        some (if chunksOf [⟨false, false, 10, false, [4]⟩] = [] then .StoppedEmpty
          else .Captured (chunksOf [⟨false, false, 10, false, [4]⟩])) :=
  capture_timeout_bound 30 [⟨false, false, 10, false, [4]⟩] ⟨false, false, 31, false, [5]⟩ []
    (by decide) (by decide) (by decide)

/-- Counterexample for C7 as stated: when the first stream read raises,
the listener is stopped but the stream is neither stopped nor closed
(`stream.stop_stream()` and `stream.close()` are not in a `finally`). -/
theorem capture_release_counterexample : ¬ releasesAllOnEveryExit := by
  intro h
  have := h 30 [⟨false, false, 0, true, []⟩] ⟨.error .ioError, false, false, true⟩ (by decide)
  simp at this

/-- C7 (amended): the key-event watcher is stopped on every exit path; the
stream stop and close run together, and they run on every exit path except
the one where `stream.read` itself raises, which skips them. -/
theorem capture_releases_resources (maxD : Nat) (steps : List LoopStep) (r : CaptureResult)
    (h : listen_for_audio maxD steps = some r) :
    r.listenerStopped = true ∧ r.streamStopped = r.streamClosed ∧
      (r.streamClosed = false ↔ r.result = .error .ioError) :=
  listenLoop_resources maxD steps [] r h

/-- Witness for C7 (amended) on the quit path: listener stopped, stream
stopped and closed. -/
theorem capture_releases_resources_witness :
    (⟨.error .keyboardInterrupt, true, true, true⟩ : CaptureResult).listenerStopped = true ∧
    (⟨.error .keyboardInterrupt, true, true, true⟩ : CaptureResult).streamStopped =
      (⟨.error .keyboardInterrupt, true, true, true⟩ : CaptureResult).streamClosed ∧
    ((⟨.error .keyboardInterrupt, true, true, true⟩ : CaptureResult).streamClosed = false ↔
      (⟨.error .keyboardInterrupt, true, true, true⟩ : CaptureResult).result =
        .error .ioError) :=
  capture_releases_resources 30 [⟨false, true, 0, false, []⟩]
    ⟨.error .keyboardInterrupt, true, true, true⟩ (by decide)

theorem ask_events (t : List TranscriptEntry) (q qid : String) (env : QEnv) :
    (ask_question_and_record t q qid env).1 = [Event.spoke q] := by
  unfold ask_question_and_record
  by_cases h1 : env.key.q
  · simp [h1]
  · by_cases h2 : env.key.e
    · simp only [h1, h2, if_false, if_true, Bool.false_eq_true]
      cases env.cap with
      | error e => rfl
      | ok bs => by_cases h3 : bs = [] <;> simp [h3]
    · simp [h1, h2]

theorem ask_extends (t : List TranscriptEntry) (q qid : String) (env : QEnv) :
    ∃ newE, (ask_question_and_record t q qid env).2.1 = t ++ newE ∧ newE.length ≤ 1 := by
  unfold ask_question_and_record
  by_cases h1 : env.key.q
  · exact ⟨[], by simp [h1], by simp⟩
  · by_cases h2 : env.key.e
    · simp only [h1, h2, if_false, if_true, Bool.false_eq_true]
      cases env.cap with
      | error e => exact ⟨[], by simp, by simp⟩
      | ok bs =>
        by_cases h3 : bs = []
        · exact ⟨[⟨qid, q, noAnswerText⟩], by simp [h3], by simp⟩
        · exact ⟨[⟨qid, q, (speech_to_text bs env.recog).getD noAnswerText⟩],
            by simp [h3], by simp⟩
    · exact ⟨[], by simp [h1, h2], by simp⟩

theorem runQuestions_extends (qs : List (String × String)) (t : List TranscriptEntry)
    (inputs : Nat → QEnv) (idx : Nat) :
    ∃ newE, (runQuestions t qs inputs idx).2.1 = t ++ newE ∧
      newE.length ≤ (runQuestions t qs inputs idx).1.length ∧
      (runQuestions t qs inputs idx).1.length ≤ qs.length := by
  induction qs generalizing t idx with
  | nil => exact ⟨[], by simp [runQuestions]⟩
  | cons p rest ih =>
    obtain ⟨question, qid⟩ := p
    obtain ⟨newE1, hE1, hlen1⟩ := ask_extends t question qid (inputs idx)
    have hev := ask_events t question qid (inputs idx)
    cases hstep : (ask_question_and_record t question qid (inputs idx)).2.2 with
    | error e =>
      refine ⟨newE1, ?_, ?_, ?_⟩ <;> simp [runQuestions, hstep, hE1, hev]
      · exact hlen1
    | ok sig =>
      by_cases hsig : sig = some "quit"
      · refine ⟨newE1, ?_, ?_, ?_⟩ <;> simp [runQuestions, hstep, hsig, hE1, hev]
        · exact hlen1
      · obtain ⟨newE2, hE2, hlen2, hqlen2⟩ :=
          ih (ask_question_and_record t question qid (inputs idx)).2.1 (idx + 1)
        refine ⟨newE1 ++ newE2, ?_, ?_, ?_⟩ <;>
          simp [runQuestions, hstep, hsig, hev]
        · rw [hE2, hE1, List.append_assoc]
        · have := List.length_append newE1 newE2
          omega
        · omega

theorem runQuestions_no_saved (qs : List (String × String)) (t : List TranscriptEntry)
    (inputs : Nat → QEnv) (idx : Nat) (p c : String) :
    Event.savedTranscript p c ∉ (runQuestions t qs inputs idx).1 := by
  induction qs generalizing t idx with
  | nil => simp [runQuestions]
  | cons pq rest ih =>
    obtain ⟨question, qid⟩ := pq
    have hev := ask_events t question qid (inputs idx)
    cases hstep : (ask_question_and_record t question qid (inputs idx)).2.2 with
    | error e => simp [runQuestions, hstep, hev]
    | ok sig =>
      by_cases hsig : sig = some "quit"
      · simp [runQuestions, hstep, hsig, hev]
      · simp only [runQuestions, hstep, hsig, hev, if_false, List.mem_append,
          List.mem_singleton]
        rintro (h | h)
        · simp at h
        · exact ih _ _ h

theorem interviewBody_no_saved (questions : List (String × String)) (env : InterviewEnv)
    (p c : String) :
    Event.savedTranscript p c ∉ (interviewBody questions env).1 := by
  cases hfix : (runQuestions [] questions env.inputs 0).2.2.2 with
  | some e =>
    simp only [interviewBody, hfix]
    exact runQuestions_no_saved _ _ _ _ p c
  | none =>
    cases hres : env.resume with
    | error e =>
      cases e <;> simp [interviewBody, hfix, hres, runQuestions_no_saved]
    | ok rqs =>
      by_cases hrq : rqs = []
      · simp [interviewBody, hfix, hres, hrq, runQuestions_no_saved]
      · cases hrr : (runQuestions (runQuestions [] questions env.inputs 0).2.1
            (rqs.map (fun q => (q, "dynamic"))) env.inputs
            (runQuestions [] questions env.inputs 0).2.2.1).2.2.2 with
        | none => simp [interviewBody, hfix, hres, hrq, hrr, runQuestions_no_saved]
        | some e =>
          cases e <;> simp [interviewBody, hfix, hres, hrq, hrr, runQuestions_no_saved]

/-- C2: for every started session the finalize step runs exactly once on
every path: the event trace ends with the transcript save followed by the
closing statement, no other save appears, and the artifact is written (even
when the transcript is empty). -/
theorem finalize_once (cid : Nat) (iname : String) (questions : List (String × String))
    (env : InterviewEnv) (fs : FS) (hk : env.hasKeys = true) :
    ∃ evs : List Event,
      (start_interview cid iname questions env fs).1 =
        evs ++ [Event.savedTranscript (transcript_path cid iname)
            (transcriptJson (start_interview cid iname questions env fs).2.2.1),
          Event.spoke closingText] ∧
      (∀ p c, Event.savedTranscript p c ∉ evs) ∧
      (start_interview cid iname questions env fs).2.1 (transcript_path cid iname) =
        some (transcriptJson (start_interview cid iname questions env fs).2.2.1) := by
  refine ⟨Event.spoke (introText iname) :: (interviewBody questions env).1, ?_, ?_, ?_⟩
  · simp [start_interview, hk]
  · intro p c
    simp only [List.mem_cons]
    rintro (h | h)
    · cases h
    · exact interviewBody_no_saved questions env p c h
  · simp [start_interview, hk, save_transcript]

/-- Witness for C2: quit at the very first prompt still ends with the
save of the empty transcript followed by the closing statement. -/
theorem finalize_once_witness :
    ∃ evs : List Event,
      (start_interview 1 "ml" [("Q1", "q1")] quitAtPromptEnv (fun _ => none)).1 =
        evs ++ [Event.savedTranscript (transcript_path 1 "ml")
            (transcriptJson
              (start_interview 1 "ml" [("Q1", "q1")] quitAtPromptEnv (fun _ => none)).2.2.1),
          Event.spoke closingText] ∧
      (∀ p c, Event.savedTranscript p c ∉ evs) ∧
      (start_interview 1 "ml" [("Q1", "q1")] quitAtPromptEnv (fun _ => none)).2.1
          (transcript_path 1 "ml") =
        some (transcriptJson
          (start_interview 1 "ml" [("Q1", "q1")] quitAtPromptEnv (fun _ => none)).2.2.1) :=
  finalize_once 1 "ml" [("Q1", "q1")] quitAtPromptEnv (fun _ => none) rfl

/-- C1 as stated would require the neither-key outcome of `wait_for_key`
to signal abort exactly as the quit key does; in the code the fall-through
returns `None`, the caller's `== "quit"` test is false, and the loop
proceeds to the next question. -/
theorem neither_key_counterexample :
    (ask_question_and_record [] "Q1" "1" ⟨⟨false, false⟩, .ok [], .ok ""⟩).2.2 ≠
        .ok (some "quit") ∧
    (ask_question_and_record [] "Q1" "1" ⟨⟨false, true⟩, .ok [], .ok ""⟩).2.2 =
        .ok (some "quit") ∧
    (runQuestions [] [("Q1", "1"), ("Q2", "2")]
        (fun n => if n = 0 then ⟨⟨false, false⟩, .ok [], .ok ""⟩
          else ⟨⟨false, true⟩, .ok [], .ok ""⟩) 0).1 =
      [Event.spoke "Q1", Event.spoke "Q2"] := by
  refine ⟨by decide, by decide, by decide⟩

/-- C1 (amended): when `wait_for_key` returns with neither key recognized,
`_ask_question_and_record` performs no capture and appends no transcript
entry, but does not signal abort: it returns `None` and the question loop
proceeds to the next question as if the question had completed. -/
theorem ask_neither_key (t : List TranscriptEntry) (question qid : String) (env : QEnv)
    (he : env.key.e = false) (hq : env.key.q = false) :
    ask_question_and_record t question qid env = ([Event.spoke question], t, .ok none) ∧
    ∀ (rest : List (String × String)) (inputs : Nat → QEnv) (idx : Nat), inputs idx = env →
      runQuestions t ((question, qid) :: rest) inputs idx =
        (Event.spoke question :: (runQuestions t rest inputs (idx + 1)).1,
         (runQuestions t rest inputs (idx + 1)).2.1,
         (runQuestions t rest inputs (idx + 1)).2.2.1,
         (runQuestions t rest inputs (idx + 1)).2.2.2) := by
  have hask : ask_question_and_record t question qid env = ([Event.spoke question], t, .ok none) := by
    simp [ask_question_and_record, he, hq]
  refine ⟨hask, ?_⟩
  intro rest inputs idx hin
  have hask2 : ask_question_and_record t question qid (inputs idx) =
      ([Event.spoke question], t, .ok none) := by rw [hin, hask]
  simp [runQuestions, hask2]

/-- Witness for C1 (amended) at the all-false key result. -/
theorem ask_neither_key_witness :
    ask_question_and_record [] "Q1" "1" neitherKeyQEnv =
      ([Event.spoke "Q1"], [], .ok none) ∧
    ∀ (rest : List (String × String)) (inputs : Nat → QEnv) (idx : Nat),
      inputs idx = neitherKeyQEnv →
      runQuestions [] (("Q1", "1") :: rest) inputs idx =
        (Event.spoke "Q1" :: (runQuestions [] rest inputs (idx + 1)).1,
         (runQuestions [] rest inputs (idx + 1)).2.1,
         (runQuestions [] rest inputs (idx + 1)).2.2.1,
         (runQuestions [] rest inputs (idx + 1)).2.2.2) :=
  ask_neither_key [] "Q1" "1" neitherKeyQEnv rfl rfl

/-- C4: over any question run the transcript only grows by appending at
the end, by at most one entry per question presented (an event is emitted
per presented question) and never more entries than questions; a question
whose capture raises `KeyboardInterrupt` (the `QuitRequested` outcome)
appends nothing; a question whose recording step completes appends exactly
one entry. -/
theorem transcript_append_only (t : List TranscriptEntry) (qs : List (String × String))
    (inputs : Nat → QEnv) (idx : Nat) (q qid : String) (env : QEnv) (bs : Bytes) :
    (∃ newE, (runQuestions t qs inputs idx).2.1 = t ++ newE ∧
      newE.length ≤ (runQuestions t qs inputs idx).1.length ∧
      (runQuestions t qs inputs idx).1.length ≤ qs.length) ∧
    (env.key.q = false → env.key.e = true → env.cap = .error .keyboardInterrupt →
      (ask_question_and_record t q qid env).2.1 = t ∧
      (ask_question_and_record t q qid env).2.2 = .error .keyboardInterrupt) ∧
    (env.key.q = false → env.key.e = true → env.cap = .ok bs →
      ∃ entry, (ask_question_and_record t q qid env).2.1 = t ++ [entry]) := by
  refine ⟨runQuestions_extends qs t inputs idx, ?_, ?_⟩
  · intro h1 h2 h3
    constructor <;> simp [ask_question_and_record, h1, h2, h3]
  · intro h1 h2 h3
    by_cases hbs : bs = []
    · exact ⟨⟨qid, q, noAnswerText⟩, by simp [ask_question_and_record, h1, h2, h3, hbs]⟩
    · exact ⟨⟨qid, q, (speech_to_text bs env.recog).getD noAnswerText⟩,
        by simp [ask_question_and_record, h1, h2, h3, hbs]⟩

/-- C5: when the user advances and capture completes without quit, the
appended answer is the recognizer's text verbatim when recognition yields
non-empty text, and the placeholder in every other case (empty audio,
empty text, or a recognizer exception, which is caught rather than
aborting: the call still returns `None` normally). -/
theorem answer_verbatim_or_placeholder (t : List TranscriptEntry) (q qid : String)
    (env : QEnv) (bs : Bytes) (s : String)
    (hq : env.key.q = false) (he : env.key.e = true) (hcap : env.cap = .ok bs) :
    (bs ≠ [] → env.recog = .ok s → s ≠ "" →
      ask_question_and_record t q qid env = ([Event.spoke q], t ++ [⟨qid, q, s⟩], .ok none)) ∧
    ((bs = [] ∨ env.recog = .error () ∨ env.recog = .ok "") →
      ask_question_and_record t q qid env =
        ([Event.spoke q], t ++ [⟨qid, q, noAnswerText⟩], .ok none)) := by
  constructor
  · intro hbs hrec hs
    simp [ask_question_and_record, hq, he, hcap, hbs, speech_to_text, hrec, hs]
  · rintro (hbs | hrec | hrec)
    · simp [ask_question_and_record, hq, he, hcap, hbs]
    · by_cases hbs : bs = []
      · simp [ask_question_and_record, hq, he, hcap, hbs]
      · simp [ask_question_and_record, hq, he, hcap, hbs, speech_to_text, hrec]
    · by_cases hbs : bs = []
      · simp [ask_question_and_record, hq, he, hcap, hbs]
      · simp [ask_question_and_record, hq, he, hcap, hbs, speech_to_text, hrec]

/-- Witness for C5: non-empty audio and recognizer text are recorded
verbatim. -/
theorem answer_verbatim_witness :
    ([5, 6] ≠ ([] : Bytes) → verbatimQEnv.recog = .ok "hello there" → "hello there" ≠ "" →
      ask_question_and_record [] "Q1" "q1" verbatimQEnv =
        ([Event.spoke "Q1"], [] ++ [⟨"q1", "Q1", "hello there"⟩], .ok none)) ∧
    (([5, 6] = ([] : Bytes) ∨ verbatimQEnv.recog = .error () ∨ verbatimQEnv.recog = .ok "") →
      ask_question_and_record [] "Q1" "q1" verbatimQEnv =
        ([Event.spoke "Q1"], [] ++ [⟨"q1", "Q1", noAnswerText⟩], .ok none)) :=
  answer_verbatim_or_placeholder [] "Q1" "q1" verbatimQEnv [5, 6] "hello there" rfl rfl rfl

/-- C8: resume-phase failures are recoverable: a missing resume file is
announced and skipped (full trace shown: the session proceeds to finalize
with the fixed-phase entries intact); any other resume-processing
exception is announced and skipped; an empty generated list is announced
and the session proceeds; none of these aborts or escapes the phase. -/
theorem resume_phase_recoverable (cid : Nat) (iname : String)
    (questions : List (String × String)) (env : InterviewEnv) (fs : FS)
    (hk : env.hasKeys = true)
    (hfix : (runQuestions [] questions env.inputs 0).2.2.2 = none) :
    (env.resume = .error .fileNotFound →
      (start_interview cid iname questions env fs).1 =
        Event.spoke (introText iname) :: (runQuestions [] questions env.inputs 0).1 ++
          [Event.spoke resumeIntroText, Event.spoke skipNotFoundText,
           Event.savedTranscript (transcript_path cid iname)
             (transcriptJson (runQuestions [] questions env.inputs 0).2.1),
           Event.spoke closingText] ∧
      (start_interview cid iname questions env fs).2.2.1 =
        (runQuestions [] questions env.inputs 0).2.1 ∧
      (start_interview cid iname questions env fs).2.2.2 = none) ∧
    (∀ e : PyExn, e ≠ .keyboardInterrupt → e ≠ .fileNotFound → env.resume = .error e →
      Event.spoke skipIssueText ∈ (start_interview cid iname questions env fs).1 ∧
      (start_interview cid iname questions env fs).2.2.1 =
        (runQuestions [] questions env.inputs 0).2.1 ∧
      (start_interview cid iname questions env fs).2.2.2 = none) ∧
    (env.resume = .ok [] →
      Event.spoke noQuestionsText ∈ (start_interview cid iname questions env fs).1 ∧
      (start_interview cid iname questions env fs).2.2.1 =
        (runQuestions [] questions env.inputs 0).2.1 ∧
      (start_interview cid iname questions env fs).2.2.2 = none) := by
  refine ⟨?_, ?_, ?_⟩
  · intro hres
    refine ⟨?_, ?_, ?_⟩ <;> simp [start_interview, interviewBody, hk, hfix, hres]
  · intro e he1 he2 hres
    cases e with
    | keyboardInterrupt => exact absurd rfl he1
    | fileNotFound => exact absurd rfl he2
    | ioError =>
      refine ⟨?_, ?_, ?_⟩ <;> simp [start_interview, interviewBody, hk, hfix, hres]
    | genericError =>
      refine ⟨?_, ?_, ?_⟩ <;> simp [start_interview, interviewBody, hk, hfix, hres]
  · intro hres
    refine ⟨?_, ?_, ?_⟩ <;> simp [start_interview, interviewBody, hk, hfix, hres]

/-- Witness for C8: a missing resume file is announced and skipped, the
fixed-phase entry survives to finalize. -/
theorem resume_phase_recoverable_witness :
    (resumeMissingEnv.resume = .error .fileNotFound →
      (start_interview 2 "ml" [("Q1", "q1")] resumeMissingEnv (fun _ => none)).1 =
        Event.spoke (introText "ml") ::
            (runQuestions [] [("Q1", "q1")] resumeMissingEnv.inputs 0).1 ++
          [Event.spoke resumeIntroText, Event.spoke skipNotFoundText,
           Event.savedTranscript (transcript_path 2 "ml")
             (transcriptJson (runQuestions [] [("Q1", "q1")] resumeMissingEnv.inputs 0).2.1),
           Event.spoke closingText] ∧
      (start_interview 2 "ml" [("Q1", "q1")] resumeMissingEnv (fun _ => none)).2.2.1 =
        (runQuestions [] [("Q1", "q1")] resumeMissingEnv.inputs 0).2.1 ∧
      (start_interview 2 "ml" [("Q1", "q1")] resumeMissingEnv (fun _ => none)).2.2.2 = none) ∧
    (∀ e : PyExn, e ≠ .keyboardInterrupt → e ≠ .fileNotFound →
      resumeMissingEnv.resume = .error e →
      Event.spoke skipIssueText ∈
        (start_interview 2 "ml" [("Q1", "q1")] resumeMissingEnv (fun _ => none)).1 ∧
      (start_interview 2 "ml" [("Q1", "q1")] resumeMissingEnv (fun _ => none)).2.2.1 =
        (runQuestions [] [("Q1", "q1")] resumeMissingEnv.inputs 0).2.1 ∧
      (start_interview 2 "ml" [("Q1", "q1")] resumeMissingEnv (fun _ => none)).2.2.2 = none) ∧
    (resumeMissingEnv.resume = .ok [] →
      Event.spoke noQuestionsText ∈
        (start_interview 2 "ml" [("Q1", "q1")] resumeMissingEnv (fun _ => none)).1 ∧
      (start_interview 2 "ml" [("Q1", "q1")] resumeMissingEnv (fun _ => none)).2.2.1 =
        (runQuestions [] [("Q1", "q1")] resumeMissingEnv.inputs 0).2.1 ∧
      (start_interview 2 "ml" [("Q1", "q1")] resumeMissingEnv (fun _ => none)).2.2.2 = none) :=
  resume_phase_recoverable 2 "ml" [("Q1", "q1")] resumeMissingEnv (fun _ => none) rfl (by decide)

/-- C9: the persistence step is idempotent: saving the same interview
state twice leaves the same filesystem as saving it once — in particular a
byte-identical artifact at the same path (the file is opened for
truncating write and the serialization is a pure function of the state). -/
theorem save_transcript_idempotent (fs : FS) (cid : Nat) (iname : String)
    (t : List TranscriptEntry) :
    save_transcript (save_transcript fs cid iname t) cid iname t =
      save_transcript fs cid iname t := by
  funext p
  by_cases h : p = transcript_path cid iname <;> simp [save_transcript, h]

/-- C10: a `KeyboardInterrupt` raised while answering a resume-derived
question is not absorbed by the resume phase's `except Exception` handler:
the session ends with the transcript as the resume loop left it, no skip
announcement is spoken (the trace is exactly the aborted run followed by
the finalize events), the outer handler absorbs the signal, and finalize
still runs; and an interaction whose capture raises `KeyboardInterrupt`
appends no entry and stops the loop at that question. -/
theorem resume_quit_escapes (cid : Nat) (iname : String)
    (questions : List (String × String)) (env : InterviewEnv) (fs : FS)
    (rqs : List String) (t1 : List TranscriptEntry) (q1 qid1 : String) (env1 : QEnv)
    (rest1 : List (String × String)) (inputs1 : Nat → QEnv) (idx1 : Nat)
    (hk : env.hasKeys = true)
    (hfix : (runQuestions [] questions env.inputs 0).2.2.2 = none)
    (hres : env.resume = .ok rqs) (hne : rqs ≠ [])
    (hquit : (runQuestions (runQuestions [] questions env.inputs 0).2.1
        (rqs.map (fun q => (q, "dynamic"))) env.inputs
        (runQuestions [] questions env.inputs 0).2.2.1).2.2.2 = some .keyboardInterrupt) :
    (start_interview cid iname questions env fs).1 =
      Event.spoke (introText iname) :: (runQuestions [] questions env.inputs 0).1 ++
        Event.spoke resumeIntroText ::
          (runQuestions (runQuestions [] questions env.inputs 0).2.1
            (rqs.map (fun q => (q, "dynamic"))) env.inputs
            (runQuestions [] questions env.inputs 0).2.2.1).1 ++
        [Event.savedTranscript (transcript_path cid iname)
           (transcriptJson (runQuestions (runQuestions [] questions env.inputs 0).2.1
             (rqs.map (fun q => (q, "dynamic"))) env.inputs
             (runQuestions [] questions env.inputs 0).2.2.1).2.1),
         Event.spoke closingText] ∧
    (start_interview cid iname questions env fs).2.2.1 =
      (runQuestions (runQuestions [] questions env.inputs 0).2.1
        (rqs.map (fun q => (q, "dynamic"))) env.inputs
        (runQuestions [] questions env.inputs 0).2.2.1).2.1 ∧
    (start_interview cid iname questions env fs).2.2.2 = none ∧
    (env1.key.q = false → env1.key.e = true → env1.cap = .error .keyboardInterrupt →
      inputs1 idx1 = env1 →
      runQuestions t1 ((q1, qid1) :: rest1) inputs1 idx1 =
        ([Event.spoke q1], t1, idx1 + 1, some .keyboardInterrupt)) := by
  refine ⟨?_, ?_, ?_, ?_⟩
  · simp [start_interview, interviewBody, hk, hfix, hres, hne, hquit]
  · simp [start_interview, interviewBody, hk, hfix, hres, hne, hquit]
  · simp [start_interview, interviewBody, hk, hfix, hres, hne, hquit]
  · intro h1 h2 h3 hin
    have hask : ask_question_and_record t1 q1 qid1 (inputs1 idx1) =
        ([Event.spoke q1], t1, .error .keyboardInterrupt) := by
      rw [hin]; simp [ask_question_and_record, h1, h2, h3]
    simp [runQuestions, hask]

/-- Witness for C10: quit during the first of two resume questions; the
trace holds no skip announcement and finalize still runs. -/
theorem resume_quit_escapes_witness :
    (start_interview 1 "ml" [("Q1", "q1")] resumeQuitEnv (fun _ => none)).1 =
      Event.spoke (introText "ml") ::
          (runQuestions [] [("Q1", "q1")] resumeQuitEnv.inputs 0).1 ++
        Event.spoke resumeIntroText ::
          (runQuestions (runQuestions [] [("Q1", "q1")] resumeQuitEnv.inputs 0).2.1
            (["R1", "R2"].map (fun q => (q, "dynamic"))) resumeQuitEnv.inputs
            (runQuestions [] [("Q1", "q1")] resumeQuitEnv.inputs 0).2.2.1).1 ++
        [Event.savedTranscript (transcript_path 1 "ml")
           (transcriptJson
             (runQuestions (runQuestions [] [("Q1", "q1")] resumeQuitEnv.inputs 0).2.1
               (["R1", "R2"].map (fun q => (q, "dynamic"))) resumeQuitEnv.inputs
               (runQuestions [] [("Q1", "q1")] resumeQuitEnv.inputs 0).2.2.1).2.1),
         Event.spoke closingText] ∧
    (start_interview 1 "ml" [("Q1", "q1")] resumeQuitEnv (fun _ => none)).2.2.1 =
      (runQuestions (runQuestions [] [("Q1", "q1")] resumeQuitEnv.inputs 0).2.1
        (["R1", "R2"].map (fun q => (q, "dynamic"))) resumeQuitEnv.inputs
        (runQuestions [] [("Q1", "q1")] resumeQuitEnv.inputs 0).2.2.1).2.1 ∧
    (start_interview 1 "ml" [("Q1", "q1")] resumeQuitEnv (fun _ => none)).2.2.2 = none ∧
    (resumeQuitQEnv.key.q = false → resumeQuitQEnv.key.e = true →
      resumeQuitQEnv.cap = .error .keyboardInterrupt →
      resumeQuitEnv.inputs 1 = resumeQuitQEnv →
      runQuestions [] (("R1", "dynamic") :: []) resumeQuitEnv.inputs 1 =
        ([Event.spoke "R1"], [], 1 + 1, some .keyboardInterrupt)) :=
  resume_quit_escapes 1 "ml" [("Q1", "q1")] resumeQuitEnv (fun _ => none) ["R1", "R2"]
    [] "R1" "dynamic" resumeQuitQEnv [] resumeQuitEnv.inputs 1
    rfl (by decide) rfl (by decide) (by decide)
